import Mathlib

set_option linter.unusedVariables false

/-!
Shallow embedding of `pubcontrol.py` (the `PubControl` dispatcher class) and of
the components it drives.  Definitions are translated from the source module;
components of the package that are not part of that module (the callback
fan-in handler `PubControlClientCallbackHandler` and the `ZmqSubMonitor`
ordering contract) are modelled from the specification and marked as such in
their doc comments.
-/

namespace PubControlModel

/-- A configuration entry: a mapping with the optional keys recognized by
`apply_config` (`uri`, `iss`, `key`, `zmq_uri`, `zmq_push_uri`, `zmq_pub_uri`,
`zmq_require_subscribers`).  A key absent from the mapping is `none`;
`zmq_require_subscribers` is `some b` exactly when the key is present with the
boolean value `b` (Python's `entry.get(...) is False` matches only an explicit
`False`). -/
structure ConfigEntry where
  uri : Option String := none
  iss : Option String := none
  key : Option String := none
  zmq_uri : Option String := none
  zmq_push_uri : Option String := none
  zmq_pub_uri : Option String := none
  zmq_require_subscribers : Option Bool := none
deriving DecidableEq

/-- A registered client: either a `PubControlClient` (direct HTTP publish,
`auth` holding the JWT `(iss, key)` pair installed by `set_auth_jwt` when an
issuer was configured) or a `ZmqPubControlClient` (bus publish, carrying the
three optional URIs and the effective `require_subscribers` flag it was
constructed with). -/
inductive Client where
  | pubControlClient (uri : String) (auth : Option (String × String))
  | zmqPubControlClient (zmq_uri zmq_push_uri zmq_pub_uri : Option String)
      (require_subscribers : Bool)
deriving DecidableEq

/-- The shared outbound ZMQ socket: an XPUB-style socket with a `linger`
value and the list of URIs it has been connected to, in connect order. -/
structure ZmqSock where
  linger : Nat
  connectedUris : List String
deriving DecidableEq

/-- The mutable state of one `PubControl` instance (the dispatcher): the
registered client sequence, the optional shared socket, whether a
`ZmqSubMonitor` has been attached to that socket, and whether the monitor's
callback is the dedup method `_submonitor_callback` (the source wires the raw
consumer `_sub_callback` instead, so creation records `false` here).  The two
counters record how many times a shared socket has been created and closed;
they exist only for stating lifecycle invariants. -/
structure PCState where
  clients : List Client
  zmq_sock : Option ZmqSock
  zmq_sub_monitor : Bool
  monitorCallbackIsDedup : Bool
  sockCreations : Nat
  sockCloses : Nat
deriving DecidableEq

/-- The import environment and construction-time options of the instance:
whether the `zmq` and `tnetstring` packages imported successfully, and whether
a consumer `sub_callback` was supplied to `__init__`. -/
structure Env where
  zmq : Bool
  tnetstring : Bool
  sub_callback : Bool
deriving DecidableEq

/-- The state of a freshly constructed `PubControl` instance before any
configuration is applied. -/
def initState : PCState :=
  { clients := [], zmq_sock := none, zmq_sub_monitor := false,
    monitorCallbackIsDedup := false, sockCreations := 0, sockCloses := 0 }

/-- Errors raised by `apply_config`: `ValueError` with its message, or the
`KeyError` raised by `entry['key']` when `iss` is present without `key`. -/
inductive PCError where
  | valueError (msg : String)
  | keyError (key : String)
deriving DecidableEq

/-- Method `PubControl._connect_zmq_pub_uri`: under the lock, if no shared socket
exists, create one (XPUB, linger 0) and, when a consumer `sub_callback` was
supplied, attach a `ZmqSubMonitor` whose callback is `self._sub_callback`
(hence `monitorCallbackIsDedup := false`); then connect the socket to `uri`. -/
def _connect_zmq_pub_uri (env : Env) (s : PCState) (uri : String) : PCState :=
  match s.zmq_sock with
  | none =>
      { s with
        zmq_sock := some { linger := 0, connectedUris := [uri] },
        zmq_sub_monitor := env.sub_callback,
        monitorCallbackIsDedup := false,
        sockCreations := s.sockCreations + 1 }
  | some sock =>
      { s with zmq_sock := some { sock with connectedUris := sock.connectedUris ++ [uri] } }

/-- Method `PubControl.remove_all_clients`: close every non-`PubControlClient`
client, clear the client sequence, and under the lock close and clear the
shared socket if present. -/
def remove_all_clients (s : PCState) : PCState :=
  let s' := { s with clients := ([] : List Client) }
  match s'.zmq_sock with
  | some _ => { s' with zmq_sock := none, sockCloses := s'.sockCloses + 1 }
  | none => s'

/-- Method `PubControl.add_client`: append the client, no validation. -/
def add_client (s : PCState) (c : Client) : PCState :=
  { s with clients := s.clients ++ [c] }

/-- The validation test of `apply_config`: an entry fails validation when it
declares `zmq_require_subscribers` exactly `False` and has no `zmq_pub_uri`
key. -/
def entryInvalid (e : ConfigEntry) : Bool :=
  e.zmq_require_subscribers == some false && e.zmq_pub_uri == none

/-- Whether an entry selects the `ZmqPubControlClient` branch of
`apply_config`: any of `zmq_uri`, `zmq_push_uri`, `zmq_pub_uri` present. -/
def hasZmqKey (e : ConfigEntry) : Bool :=
  e.zmq_uri.isSome || e.zmq_push_uri.isSome || e.zmq_pub_uri.isSome

/-- Append a client to the sequence when one was constructed (the trailing
`if client:` of the `apply_config` loop body). -/
def appendIfSome (s : PCState) (c : Option Client) : PCState :=
  match c with
  | some c => { s with clients := s.clients ++ [c] }
  | none => s

/-- One iteration of the construction loop of `apply_config`: build the
direct client if `uri` is present (raising `KeyError` when `iss` is present
without `key`), then, if any bus URI is present, check the `zmq` and
`tnetstring` imports, rebind `client` to a freshly built `ZmqPubControlClient`
(overwriting any direct client), connect the shared pub socket when a pub URI
is present and (`require_subscribers` or no push URI), and finally append the
surviving `client` if any.  On an error the state is returned as it was when
the exception was raised. -/
def apply_entry (env : Env) (s : PCState) (e : ConfigEntry) : PCState × Option PCError :=
  if e.uri.isSome && e.iss.isSome && e.key.isNone then
    (s, some (.keyError "key"))
  else
    let client : Option Client :=
      match e.uri with
      | none => none
      | some u =>
        match e.iss with
        | none => some (.pubControlClient u none)
        | some iss => some (.pubControlClient u (some (iss, e.key.getD "")))
    if hasZmqKey e then
      if !env.zmq then (s, some (.valueError "zmq package must be installed"))
      else if !env.tnetstring then (s, some (.valueError "tnetstring package must be installed"))
      else
        let require_subscribers := e.zmq_require_subscribers.getD false
        let client : Option Client :=
          some (.zmqPubControlClient e.zmq_uri e.zmq_push_uri e.zmq_pub_uri require_subscribers)
        let s' :=
          if e.zmq_pub_uri.isSome && (require_subscribers || e.zmq_push_uri.isNone) then
            _connect_zmq_pub_uri env s (e.zmq_pub_uri.getD "")
          else s
        (appendIfSome s' client, none)
    else
      (appendIfSome s client, none)

/-- The construction pass of `apply_config`: entries in order, stopping at the
first raising entry (clients appended by earlier iterations stay in place). -/
def apply_entries (env : Env) : PCState → List ConfigEntry → PCState × Option PCError
  | s, [] => (s, none)
  | s, e :: rest =>
    match (apply_entry env s e).2 with
    | none => apply_entries env (apply_entry env s e).1 rest
    | some err => ((apply_entry env s e).1, some err)

/-- A configuration object: a single entry hash or a list of entry hashes. -/
inductive Config where
  | single (e : ConfigEntry)
  | list (entries : List ConfigEntry)
deriving DecidableEq

/-- The `if not isinstance(config, list): config = [config]` normalization. -/
def Config.toEntries : Config → List ConfigEntry
  | .single e => [e]
  | .list es => es

/-- The `ValueError` message of the validation pass. -/
def validationMsg : String :=
  "zmq_pub_uri must be set if require_subscriptions is set to true"

/-- Method `PubControl.apply_config`: normalize to a list, run the validation pass
over every entry (raising before anything is constructed), then run the
construction pass. -/
def apply_config (env : Env) (s : PCState) (config : Config) : PCState × Option PCError :=
  let entries := config.toEntries
  match entries.find? entryInvalid with
  | some _ => (s, some (.valueError validationMsg))
  | none => apply_entries env s entries

/-- An item to publish.  Only its `export(blocking, zmq)` method is visible to
the dispatcher; we model the exported mapping as an abstract `String`. -/
structure Item where
  exportF : Bool → Bool → String

/-- An observable effect of one `publish` call: a two-part message sent on the
shared socket, one client's synchronous publish, or one client's asynchronous
publish (recording whether a per-client completion callback was passed). -/
inductive Event where
  | zmqSend (channel : String) (content : String)
  | clientSyncPublish (c : Client)
  | clientAsyncPublish (c : Client) (hasCallback : Bool)
deriving DecidableEq

/-- Method `PubControl._send_to_zmq`: under the lock, if the shared socket exists,
UTF-8-normalize the channel, export the item with both flags `True`,
serialize with `tnetstring.dumps` and send the two-part message; otherwise do
nothing.  `ensure_utf8` and `dumps` abstract `_ensure_utf8` and
`tnetstring.dumps`, which live outside this module. -/
def _send_to_zmq (ensure_utf8 : String → String) (dumps : String → String)
    (s : PCState) (channel : String) (item : Item) : List Event :=
  match s.zmq_sock with
  | none => []
  | some _ => [.zmqSend (ensure_utf8 channel) (dumps (item.exportF true true))]

/-- The blocking loop of `publish`: invoke each client's synchronous publish
in registration order; `beh c = some m` means client `c` raises with message
`m`, which stops the loop and propagates. Returns the publishes performed and
the propagated error, if any. -/
def publishSyncLoop (beh : Client → Option String) : List Client → List Event × Option String
  | [] => ([], none)
  | c :: rest =>
    match beh c with
    | some m => ([.clientSyncPublish c], some m)
    | none =>
      (.clientSyncPublish c :: (publishSyncLoop beh rest).1, (publishSyncLoop beh rest).2)

/-- What one `publish` call does: its effect trace, the size of the fan-in
handler it constructed (if any), and the error it propagates (if any). -/
structure PublishOut where
  events : List Event
  handlerSize : Option Nat
  error : Option String
deriving DecidableEq

/-- Method `PubControl.publish`: always first `_send_to_zmq`; then, if `blocking`,
each client's synchronous publish in order with errors propagating; otherwise
construct a `PubControlClientCallbackHandler` sized to the client count when a
callback was supplied, and invoke each client's asynchronous publish. -/
def publish (beh : Client → Option String) (ensure_utf8 : String → String)
    (dumps : String → String) (s : PCState) (channel : String) (item : Item)
    (blocking : Bool) (hasCallback : Bool) : PublishOut :=
  let zmqEvents := _send_to_zmq ensure_utf8 dumps s channel item
  if blocking then
    { events := zmqEvents ++ (publishSyncLoop beh s.clients).1, handlerSize := none,
      error := (publishSyncLoop beh s.clients).2 }
  else
    { events := zmqEvents ++ s.clients.map (fun c => .clientAsyncPublish c hasCallback),
      handlerSize := if hasCallback then some s.clients.length else none,
      error := none }

/-! ### Callback fan-in handler

Modelled from the spec: the `PubControlClientCallbackHandler` module is not
part of the shown source.  Per the spec it holds a completion counter
(starting at 0), a success-so-far flag (starting true) and the first error
message seen (starting empty); each completion report increments the counter
and records the message of the first failure; when the counter reaches the
expected count the consumer callback is invoked once with the aggregate. -/

/-- Internal state of the fan-in handler. -/
structure FanInState where
  counter : Nat
  success : Bool
  first_error_message : String
deriving DecidableEq

/-- Modelled from the spec: handler state at construction. -/
def fanInInit : FanInState :=
  { counter := 0, success := true, first_error_message := "" }

/-- Modelled from the spec: the state change of one completion report
`(success, message)`: increment the counter; on the first failure clear the
flag and record the message. -/
def fanInStep0 (st : FanInState) (r : Bool × String) : FanInState :=
  let st := { st with counter := st.counter + 1 }
  if !r.1 && st.success then
    { st with success := false, first_error_message := r.2 }
  else st

/-- Modelled from the spec: one completion report against a handler expecting
`n` completions; returns the new state and the consumer-callback invocations
it triggers (the callback fires when the counter reaches `n`). -/
def fanInStep (n : Nat) (st : FanInState) (r : Bool × String) :
    FanInState × List (Bool × String) :=
  let st' := fanInStep0 st r
  (st', if st'.counter = n then [(st'.success, st'.first_error_message)] else [])

/-- Run the handler over a sequence of completion reports in arrival order,
collecting every consumer-callback invocation. -/
def fanInRunAux (n : Nat) (st : FanInState) : List (Bool × String) → List (Bool × String)
  | [] => []
  | r :: rest =>
    (fanInStep n st r).2 ++ fanInRunAux n (fanInStep n st r).1 rest

/-- All consumer-callback invocations produced by a handler constructed for
`n` expected completions when the given reports arrive, in arrival order. -/
def fanInRun (n : Nat) (rs : List (Bool × String)) : List (Bool × String) :=
  fanInRunAux n fanInInit rs

/-! ### Subscription monitors and event aggregation -/

/-- A raw subscription edge type. -/
inductive EvType where
  | sub
  | unsub
deriving DecidableEq

/-- A subscription monitor's visible state: its set of currently-subscribed
channel names. -/
structure SubMonitor where
  subscriptions : List String
deriving DecidableEq

/-- The subscription-relevant state: the dispatcher's own monitor and, for
each registered client, its own `_sub_monitor` if it has one. -/
structure SubSystem where
  dispatcherMonitor : SubMonitor
  clientMonitors : List (Option SubMonitor)
deriving DecidableEq

/-- Method `PubControl._submonitor_callback`, per its documented intent (the method
as written in the source is dead code and refers to the undefined name
`_self`): under the lock, suppress the event when any registered client's own
monitor already holds the channel; otherwise execute the consumer
`sub_callback` when the dispatcher monitor's own set does not hold the
channel.  Returns whether the consumer callback is executed. -/
def _submonitor_callback (sys : SubSystem) (eventType : EvType) (chan : String) : Bool :=
  let executeCallback := !(sys.clientMonitors.any fun m =>
    match m with
    | some mon => mon.subscriptions.contains chan
    | none => false)
  executeCallback && !(sys.dispatcherMonitor.subscriptions.contains chan)

/-- Modelled from the spec: a `ZmqSubMonitor` processing one raw edge on the
dispatcher's socket, honoring the ordering contract (callback before adding
the channel to its own set on `sub`, after removing it on `unsub`).
`wiredDedup` selects the callback the monitor was constructed with:
`true` for `_submonitor_callback` (the documented intent), `false` for the
raw consumer `_sub_callback` (the wiring `_connect_zmq_pub_uri` performs).
Returns the new state and the consumer-callback invocations. -/
def monitorRawEdge (wiredDedup : Bool) (sys : SubSystem) (e : EvType) (chan : String) :
    SubSystem × List (EvType × String) :=
  match e with
  | .sub =>
    let fire := if wiredDedup then _submonitor_callback sys .sub chan else true
    let sys' := { sys with dispatcherMonitor :=
      { subscriptions := chan :: sys.dispatcherMonitor.subscriptions } }
    (sys', if fire then [(.sub, chan)] else [])
  | .unsub =>
    let sys' := { sys with dispatcherMonitor :=
      { subscriptions := sys.dispatcherMonitor.subscriptions.erase chan } }
    let fire := if wiredDedup then _submonitor_callback sys' .unsub chan else true
    (sys', if fire then [(.unsub, chan)] else [])

/-! ### Operation sequences over one dispatcher instance -/

/-- A dispatcher operation, for stating lifetime invariants. -/
inductive Op where
  | applyConfig (config : Config)
  | connectZmqPubUri (uri : String)
  | publishOp (channel : String) (blocking : Bool) (hasCallback : Bool)
  | removeAllClients
deriving DecidableEq

/-- The state change of one operation.  `publish` mutates no dispatcher
state (the socket send and the client dispatches are effects, not state). -/
def runOp (env : Env) (s : PCState) : Op → PCState
  | .applyConfig cfg => (apply_config env s cfg).1
  | .connectZmqPubUri uri => _connect_zmq_pub_uri env s uri
  | .publishOp _ _ _ => s
  | .removeAllClients => remove_all_clients s

/-- Run a sequence of operations from a state. -/
def runOps (env : Env) : PCState → List Op → PCState
  | s, [] => s
  | s, op :: rest => runOps env (runOp env s op) rest

/-- Whether an event is a send on the shared socket. -/
def isZmqSend : Event → Bool
  | .zmqSend _ _ => true
  | _ => false

/-- The client that one construction-loop iteration of `apply_config` appends
for an entry, when the iteration does not raise: the bus client when any bus
URI is present (it overwrites the `client` variable), else the direct client
when `uri` is present, else nothing. -/
def entryClient (e : ConfigEntry) : Option Client :=
  if hasZmqKey e then
    some (.zmqPubControlClient e.zmq_uri e.zmq_push_uri e.zmq_pub_uri
      (e.zmq_require_subscribers.getD false))
  else
    match e.uri with
    | none => none
    | some u =>
      match e.iss with
      | none => some (.pubControlClient u none)
      | some iss => some (.pubControlClient u (some (iss, e.key.getD "")))

/-- The shared-socket bookkeeping invariant: closes never exceed creations,
at most one socket is live, and a socket is live exactly when one more
creation than closes has happened. -/
def sockInv (s : PCState) : Prop :=
  s.sockCloses ≤ s.sockCreations ∧ s.sockCreations ≤ s.sockCloses + 1 ∧
    (s.zmq_sock.isSome = true ↔ s.sockCreations = s.sockCloses + 1)

/-! ## Lemmas about the fan-in handler -/

theorem fanInStep0_counter (st : FanInState) (r : Bool × String) :
    (fanInStep0 st r).counter = st.counter + 1 := by
  simp only [fanInStep0]
  split <;> rfl

theorem fanInStep0_of_ok (st : FanInState) (r : Bool × String) (h : r.1 = true) :
    fanInStep0 st r = { st with counter := st.counter + 1 } := by
  simp [fanInStep0, h]

theorem fanInStep0_of_dead (st : FanInState) (r : Bool × String) (h : st.success = false) :
    fanInStep0 st r = { st with counter := st.counter + 1 } := by
  simp [fanInStep0, h]

theorem fanInStep0_of_fail (st : FanInState) (r : Bool × String)
    (h : r.1 = false) (hs : st.success = true) :
    fanInStep0 st r =
      { counter := st.counter + 1, success := false, first_error_message := r.2 } := by
  simp [fanInStep0, h, hs]

theorem foldl_fanInStep0_counter :
    ∀ (rs : List (Bool × String)) (st : FanInState),
      (List.foldl fanInStep0 st rs).counter = st.counter + rs.length
  | [], _ => rfl
  | r :: rest, st => by
    rw [List.foldl_cons, foldl_fanInStep0_counter rest, fanInStep0_counter]
    simp only [List.length_cons]
    omega

theorem foldl_fanInStep0_dead :
    ∀ (rs : List (Bool × String)) (st : FanInState), st.success = false →
      (List.foldl fanInStep0 st rs).success = false ∧
        (List.foldl fanInStep0 st rs).first_error_message = st.first_error_message
  | [], _, h => ⟨h, rfl⟩
  | r :: rest, st, h => by
    rw [List.foldl_cons, fanInStep0_of_dead st r h]
    exact foldl_fanInStep0_dead rest _ h

theorem foldl_fanInStep0_live :
    ∀ (rs : List (Bool × String)) (st : FanInState), st.success = true →
      (List.foldl fanInStep0 st rs).success = rs.all Prod.fst ∧
        (List.foldl fanInStep0 st rs).first_error_message =
          (((rs.find? fun r => !r.1).map Prod.snd).getD st.first_error_message)
  | [], _, h => by simp [h]
  | r :: rest, st, h => by
    rw [List.foldl_cons]
    cases hr : r.1 with
    | true =>
      rw [fanInStep0_of_ok st r hr]
      have ih := foldl_fanInStep0_live rest { st with counter := st.counter + 1 } h
      simp only [List.all_cons, hr, Bool.true_and, List.find?_cons, Bool.not_true]
      exact ih
    | false =>
      rw [fanInStep0_of_fail st r hr h]
      have ih := foldl_fanInStep0_dead rest
        { counter := st.counter + 1, success := false, first_error_message := r.2 } rfl
      simp only [List.all_cons, hr, Bool.false_and, List.find?_cons, Bool.not_false, if_true]
      exact ⟨ih.1, by rw [ih.2]; rfl⟩

theorem fanInRunAux_silent (n : Nat) :
    ∀ (rs : List (Bool × String)) (st : FanInState),
      st.counter + rs.length < n → fanInRunAux n st rs = []
  | [], _, _ => rfl
  | r :: rest, st, h => by
    have hlen : (r :: rest).length = rest.length + 1 := rfl
    have hc : (fanInStep0 st r).counter = st.counter + 1 := fanInStep0_counter st r
    have hne : ¬((fanInStep0 st r).counter = n) := by
      rw [hc]; rw [hlen] at h; omega
    show (fanInStep n st r).2 ++ fanInRunAux n (fanInStep n st r).1 rest = []
    have h2 : (fanInStep n st r).2 = [] := by
      simp only [fanInStep]
      rw [if_neg hne]
    rw [h2, List.nil_append]
    exact fanInRunAux_silent n rest (fanInStep0 st r) (by rw [hc]; rw [hlen] at h; omega)

theorem fanInRunAux_fires (n : Nat) :
    ∀ (rs : List (Bool × String)) (st : FanInState), rs ≠ [] →
      st.counter + rs.length = n →
      fanInRunAux n st rs =
        [((List.foldl fanInStep0 st rs).success,
          (List.foldl fanInStep0 st rs).first_error_message)]
  | [], _, hne, _ => absurd rfl hne
  | [r], st, _, hn => by
    have hc : (fanInStep0 st r).counter = n := by
      rw [fanInStep0_counter]; simpa using hn
    show (fanInStep n st r).2 ++ fanInRunAux n (fanInStep n st r).1 [] = []
      ++ _
    simp only [fanInStep, fanInRunAux, if_pos hc, List.foldl_cons, List.foldl_nil,
      List.append_nil, List.nil_append]
  | r :: r' :: rest, st, _, hn => by
    have hne2 : ¬((fanInStep0 st r).counter = n) := by
      rw [fanInStep0_counter]
      simp only [List.length_cons] at hn
      omega
    show (fanInStep n st r).2 ++ fanInRunAux n (fanInStep n st r).1 (r' :: rest) = _
    have h2 : (fanInStep n st r).2 = [] := by
      simp only [fanInStep]
      rw [if_neg hne2]
    rw [h2, List.nil_append, List.foldl_cons]
    exact fanInRunAux_fires n (r' :: rest) (fanInStep0 st r) (by simp)
      (by rw [fanInStep0_counter]; simp only [List.length_cons] at hn ⊢; omega)

/-! ## Claim C1 -/

/-- Claim C1 (amended to N ≥ 1): an asynchronous `publish` with a consumer
callback constructs one fan-in handler sized to the number N of registered
clients; for N ≥ 1, once all N completions have arrived (in any order) the
consumer callback has been invoked exactly once — never on a strict partial
set of completions — and the reported result is `(true, "")` when every
completion succeeded, else `(false, m)` with `m` the message of the failure
that arrived first in time.  (With N = 0 the handler is constructed sized 0
but no completion ever arrives, so the callback never fires — see the
counterexample.) -/
theorem publish_async_fanin_aggregate
    (beh : Client → Option String) (ensure_utf8 dumps : String → String)
    (s : PCState) (channel : String) (item : Item)
    (n : Nat) (rs : List (Bool × String))
    (hn : n = s.clients.length) (hlen : rs.length = n) (hpos : 1 ≤ n) :
    (publish beh ensure_utf8 dumps s channel item false true).handlerSize = some n ∧
    (∀ k, k < n → fanInRun n (List.take k rs) = []) ∧
    fanInRun n rs =
      [(rs.all Prod.fst, (((rs.find? fun r => !r.1).map Prod.snd).getD ""))] := by
  refine ⟨?_, ?_, ?_⟩
  · simp [publish, hn]
  · intro k hk
    apply fanInRunAux_silent
    have := List.length_take k rs
    simp only [fanInInit]
    omega
  · have hne : rs ≠ [] := by
      intro hnil
      rw [hnil] at hlen
      simp at hlen
      omega
    unfold fanInRun
    rw [fanInRunAux_fires n rs fanInInit hne (by simp [fanInInit, hlen])]
    have h := foldl_fanInStep0_live rs fanInInit rfl
    rw [h.1, h.2]
    rfl

/-- Witness for C1's amended theorem: two clients, the second completion is
the failure `"timeout"`; the fan-in reports `(false, "timeout")`. -/
theorem publish_async_fanin_aggregate_witness :
    fanInRun 2 [(true, ""), (false, "timeout")] = [(false, "timeout")] :=
  (publish_async_fanin_aggregate (fun _ => none) id id
    { initState with clients := [Client.pubControlClient "https://a.example/pub" none,
        Client.pubControlClient "https://b.example/pub" none] }
    "ch1" ⟨fun _ _ => "hi"⟩ 2 [(true, ""), (false, "timeout")]
    rfl rfl (by decide)).2.2.trans rfl

/-- Counterexample to C1 as stated: with N = 0 registered clients, the
asynchronous publish constructs a handler sized 0, and after all zero clients
have reported completion the consumer callback has fired zero times — not
exactly once. -/
theorem publish_async_zero_clients_no_callback :
    (publish (fun _ => none) id id initState "ch1" ⟨fun _ _ => "hi"⟩
        false true).handlerSize = some 0 ∧
    fanInRun 0 [] = [] :=
  ⟨rfl, rfl⟩

/-! ## Claim C2 -/

/-- Claim C2 (code bug): `_connect_zmq_pub_uri` wires the monitor to the raw
consumer `_sub_callback` instead of to `_submonitor_callback` (which is dead,
broken code), so a raw `sub` event for channel `"c"` reaches the consumer
callback even though a registered client's own monitor already holds `"c"` —
while the documented dedup (`_submonitor_callback`) would have suppressed it
(the aggregate OR was already true, no edge transition). -/
theorem submonitor_wiring_bypasses_dedup :
    (_connect_zmq_pub_uri ⟨true, true, true⟩ initState "tcp://a").zmq_sub_monitor = true ∧
    (_connect_zmq_pub_uri ⟨true, true, true⟩ initState "tcp://a").monitorCallbackIsDedup
      = false ∧
    (monitorRawEdge false ⟨⟨[]⟩, [some ⟨["c"]⟩]⟩ EvType.sub "c").2 = [(EvType.sub, "c")] ∧
    _submonitor_callback ⟨⟨[]⟩, [some ⟨["c"]⟩]⟩ EvType.sub "c" = false ∧
    (monitorRawEdge true ⟨⟨[]⟩, [some ⟨["c"]⟩]⟩ EvType.sub "c").2 = [] :=
  ⟨rfl, rfl, rfl, rfl, rfl⟩

/-! ## Claim C3 -/

/-- The shared-socket connect does not touch the client sequence. -/
theorem connect_clients (env : Env) (s : PCState) (uri : String) :
    (_connect_zmq_pub_uri env s uri).clients = s.clients := by
  unfold _connect_zmq_pub_uri
  split <;> rfl

/-- Claim C3 (amended): each `apply_config` construction iteration appends at
most ONE client: on an error nothing, otherwise exactly `entryClient e` — the
bus client when any bus URI is present (the `client` variable is overwritten,
so a direct client constructed from `uri` in the same entry is discarded),
else the direct client (with JWT when an issuer is present) when `uri` is
present. -/
theorem apply_entry_appends_at_most_one (env : Env) (s : PCState) (e : ConfigEntry) :
    (apply_entry env s e).1.clients =
      s.clients ++ (match (apply_entry env s e).2 with
        | some _ => []
        | none => (entryClient e).toList) := by
  by_cases hk : (e.uri.isSome && e.iss.isSome && e.key.isNone) = true
  · simp [apply_entry, entryClient, hk]
  · by_cases hz : hasZmqKey e = true
    · by_cases hzmq : env.zmq = true
      · by_cases ht : env.tnetstring = true
        · by_cases hcon : (e.zmq_pub_uri.isSome &&
              (e.zmq_require_subscribers.getD false || e.zmq_push_uri.isNone)) = true
          · simp [apply_entry, entryClient, hk, hz, hzmq, ht, hcon, appendIfSome,
              connect_clients]
          · simp [apply_entry, entryClient, hk, hz, hzmq, ht, hcon, appendIfSome]
        · simp [apply_entry, entryClient, hk, hz, hzmq, ht]
      · simp [apply_entry, entryClient, hk, hz, hzmq]
    · cases hu : e.uri with
      | none => simp [apply_entry, entryClient, hk, hz, hu, appendIfSome]
      | some u =>
        cases hi : e.iss with
        | none => simp [apply_entry, entryClient, hk, hz, hu, hi, appendIfSome]
        | some iss =>
          simp only [hu, hi, Option.isSome_some, Bool.true_and, Bool.and_eq_true,
            Option.isNone_iff_eq_none] at hk
          simp [apply_entry, entryClient, hz, hu, hi, hk, appendIfSome]

/-- Counterexample to C3 as stated: an entry carrying both a direct `uri` and
a bus `zmq_uri` registers only the bus client; the direct-publish client is
constructed but never appended. -/
theorem apply_config_drops_direct_client_of_mixed_entry :
    (apply_config ⟨true, true, false⟩ initState
        (Config.list
          [{ uri := some "https://a.example/pub", zmq_uri := some "tcp://x" }])).1.clients =
      [Client.zmqPubControlClient (some "tcp://x") none none false] ∧
    Client.pubControlClient "https://a.example/pub" none ∉
      (apply_config ⟨true, true, false⟩ initState
        (Config.list
          [{ uri := some "https://a.example/pub", zmq_uri := some "tcp://x" }])).1.clients :=
  ⟨rfl, by decide⟩

/-! ## Claim C4 -/

/-- When every client in the list succeeds, the blocking loop publishes to
each in order and propagates nothing. -/
theorem publishSyncLoop_all_ok (beh : Client → Option String) :
    ∀ (l : List Client), (∀ c ∈ l, beh c = none) →
      publishSyncLoop beh l = (l.map Event.clientSyncPublish, none)
  | [], _ => rfl
  | c :: rest, h => by
    have hc : beh c = none := h c (List.mem_cons_self c rest)
    have ih := publishSyncLoop_all_ok beh rest (fun c' hc' => h c' (List.mem_cons_of_mem c hc'))
    simp only [publishSyncLoop, hc, ih, List.map_cons]

/-- The blocking loop on `pre ++ c :: post` where every client of `pre`
succeeds and `c` raises `m`: publishes to `pre` then `c`, propagates `m`, and
never reaches `post`. -/
theorem publishSyncLoop_fails (beh : Client → Option String) (c : Client)
    (m : String) (hc : beh c = some m) :
    ∀ (pre post : List Client), (∀ c' ∈ pre, beh c' = none) →
      publishSyncLoop beh (pre ++ c :: post) =
        ((pre ++ [c]).map Event.clientSyncPublish, some m)
  | [], post, _ => by
    simp only [List.nil_append, publishSyncLoop, hc, List.map_cons, List.map_nil]
  | c' :: pre, post, h => by
    have hok : beh c' = none := h c' (List.mem_cons_self c' pre)
    have ih := publishSyncLoop_fails beh c m hc pre post
      (fun x hx => h x (List.mem_cons_of_mem c' hx))
    simp only [List.cons_append, publishSyncLoop, hok, List.append_eq, ih, List.map_cons]

/-- Claim C4: a blocking publish invokes each registered client's synchronous
publish in registration order; if some client raises, the error propagates to
the caller and no later client is invoked. -/
theorem publish_blocking_order_and_propagation
    (beh : Client → Option String) (ensure_utf8 dumps : String → String)
    (s : PCState) (channel : String) (item : Item) :
    ((∀ c ∈ s.clients, beh c = none) →
      publish beh ensure_utf8 dumps s channel item true false =
        { events := _send_to_zmq ensure_utf8 dumps s channel item ++
            s.clients.map Event.clientSyncPublish,
          handlerSize := none, error := none }) ∧
    (∀ pre c post m, s.clients = pre ++ c :: post →
      (∀ c' ∈ pre, beh c' = none) → beh c = some m →
      publish beh ensure_utf8 dumps s channel item true false =
        { events := _send_to_zmq ensure_utf8 dumps s channel item ++
            (pre ++ [c]).map Event.clientSyncPublish,
          handlerSize := none, error := some m }) := by
  constructor
  · intro h
    simp [publish, publishSyncLoop_all_ok beh s.clients h]
  · intro pre c post m hsplit hpre hc
    simp [publish, hsplit, publishSyncLoop_fails beh c m hc pre post hpre]

/-- Witness for C4: two clients, the second raises `"timeout"`; the blocking
publish performs both sync publishes in order and propagates the error. -/
theorem publish_blocking_witness :
    publish
      (fun c => if c = Client.pubControlClient "https://b.example/pub" none
        then some "timeout" else none)
      id id
      { initState with clients := [Client.pubControlClient "https://a.example/pub" none,
          Client.pubControlClient "https://b.example/pub" none] }
      "ch1" ⟨fun _ _ => "hi"⟩ true false =
      { events := [Event.clientSyncPublish (Client.pubControlClient "https://a.example/pub" none),
          Event.clientSyncPublish (Client.pubControlClient "https://b.example/pub" none)],
        handlerSize := none, error := some "timeout" } :=
  (publish_blocking_order_and_propagation
    (fun c => if c = Client.pubControlClient "https://b.example/pub" none
      then some "timeout" else none)
    id id
    { initState with clients := [Client.pubControlClient "https://a.example/pub" none,
        Client.pubControlClient "https://b.example/pub" none] }
    "ch1" ⟨fun _ _ => "hi"⟩).2
    [Client.pubControlClient "https://a.example/pub" none]
    (Client.pubControlClient "https://b.example/pub" none)
    [] "timeout" rfl (by decide) (by decide)

/-! ## Claim C5 -/

/-- Claim C5: if any entry of the configuration (a single hash or a list)
declares `zmq_require_subscribers` exactly `False` and has no `zmq_pub_uri`
key, `apply_config` raises the `ValueError` of the validation pass and the
state is unchanged — no client is constructed or registered from any entry of
the call, because the validation pass over all entries precedes the
construction pass. -/
theorem apply_config_validation_rejects_all
    (env : Env) (s : PCState) (config : Config)
    (h : ∃ e ∈ config.toEntries,
      e.zmq_require_subscribers = some false ∧ e.zmq_pub_uri = none) :
    apply_config env s config = (s, some (.valueError validationMsg)) := by
  unfold apply_config
  have hs : (config.toEntries.find? entryInvalid).isSome := by
    rw [List.find?_isSome]
    obtain ⟨e, he, h1, h2⟩ := h
    exact ⟨e, he, by simp [entryInvalid, h1, h2]⟩
  obtain ⟨e', hf⟩ := Option.isSome_iff_exists.mp hs
  simp only [hf]

/-- Witness for C5: a single-entry configuration with
`zmq_require_subscribers: false` and no pub URI is rejected with the state
untouched. -/
theorem apply_config_validation_witness :
    apply_config ⟨true, true, false⟩ initState
        (Config.single { zmq_require_subscribers := some false }) =
      (initState, some (PCError.valueError validationMsg)) :=
  apply_config_validation_rejects_all ⟨true, true, false⟩ initState
    (Config.single { zmq_require_subscribers := some false })
    ⟨{ zmq_require_subscribers := some false }, List.mem_singleton.mpr rfl, rfl, rfl⟩

/-! ## Claim C6 -/

/-- The blocking loop emits only client sync-publish events, never a socket
send. -/
theorem publishSyncLoop_no_zmqSend (beh : Client → Option String) :
    ∀ (l : List Client), ((publishSyncLoop beh l).1.all fun ev => !isZmqSend ev) = true
  | [] => rfl
  | c :: rest => by
    cases hb : beh c with
    | some m => simp [publishSyncLoop, hb, isZmqSend]
    | none =>
      have ih := publishSyncLoop_no_zmqSend beh rest
      simp only [publishSyncLoop, hb, List.all_cons, isZmqSend, Bool.not_false,
        Bool.true_and]
      exact ih

/-- Claim C6: every `publish`, blocking or not, first runs the shared-socket
send step before any client dispatch: its event trace is the `_send_to_zmq`
events followed by client events only; `_send_to_zmq` sends the two-part
message `[ensure_utf8 channel, dumps (item.export(True, True))]` exactly when
the shared socket exists and nothing otherwise; and the step reports no
result to the caller — the error `publish` propagates is the same whether or
not the socket exists. -/
theorem publish_sends_to_zmq_first
    (beh : Client → Option String) (ensure_utf8 dumps : String → String)
    (s : PCState) (channel : String) (item : Item)
    (blocking hasCallback : Bool) :
    (publish beh ensure_utf8 dumps s channel item blocking hasCallback).events =
      _send_to_zmq ensure_utf8 dumps s channel item ++
        (if blocking then (publishSyncLoop beh s.clients).1
         else s.clients.map (fun c => Event.clientAsyncPublish c hasCallback)) ∧
    _send_to_zmq ensure_utf8 dumps s channel item =
      (match s.zmq_sock with
       | none => []
       | some _ => [Event.zmqSend (ensure_utf8 channel) (dumps (item.exportF true true))]) ∧
    ((if blocking then (publishSyncLoop beh s.clients).1
      else s.clients.map (fun c => Event.clientAsyncPublish c hasCallback)).all
        fun ev => !isZmqSend ev) = true ∧
    (publish beh ensure_utf8 dumps { s with zmq_sock := none } channel item
        blocking hasCallback).error =
      (publish beh ensure_utf8 dumps s channel item blocking hasCallback).error := by
  refine ⟨?_, rfl, ?_, ?_⟩
  · cases blocking <;> rfl
  · cases blocking with
    | true => simp only [if_pos]; exact publishSyncLoop_no_zmqSend beh s.clients
    | false => simp [isZmqSend, List.all_map, Function.comp]
  · cases blocking <;> rfl

/-! ## Claim C7 -/

/-- Appending a client (`appendIfSome`) only touches the client sequence. -/
theorem appendIfSome_sock (s : PCState) (c : Option Client) :
    (appendIfSome s c).zmq_sock = s.zmq_sock ∧
    (appendIfSome s c).sockCreations = s.sockCreations ∧
    (appendIfSome s c).sockCloses = s.sockCloses := by
  cases c <;> exact ⟨rfl, rfl, rfl⟩

/-- The connect method `_connect_zmq_pub_uri` never closes; it either reuses the live socket
(creation count and liveness unchanged) or creates one because none exists. -/
theorem connect_sock (env : Env) (s : PCState) (u : String) :
    (_connect_zmq_pub_uri env s u).sockCloses = s.sockCloses ∧
    (((_connect_zmq_pub_uri env s u).sockCreations = s.sockCreations ∧
        (_connect_zmq_pub_uri env s u).zmq_sock.isSome = s.zmq_sock.isSome) ∨
      ((_connect_zmq_pub_uri env s u).sockCreations = s.sockCreations + 1 ∧
        s.zmq_sock = none ∧ (_connect_zmq_pub_uri env s u).zmq_sock.isSome = true)) := by
  cases h : s.zmq_sock with
  | none =>
    unfold _connect_zmq_pub_uri
    rw [h]
    exact ⟨rfl, Or.inr ⟨rfl, rfl, rfl⟩⟩
  | some sock =>
    unfold _connect_zmq_pub_uri
    rw [h]
    exact ⟨rfl, Or.inl ⟨rfl, rfl⟩⟩

/-- The construction iteration of one entry either raises (state untouched),
appends its client, or connects the shared pub socket and appends its
client. -/
theorem apply_entry_cases (env : Env) (s : PCState) (e : ConfigEntry) :
    (apply_entry env s e).1 = s ∨
    (apply_entry env s e).1 = appendIfSome s (entryClient e) ∨
    (apply_entry env s e).1 =
      appendIfSome (_connect_zmq_pub_uri env s (e.zmq_pub_uri.getD "")) (entryClient e) := by
  by_cases hk : (e.uri.isSome && e.iss.isSome && e.key.isNone) = true
  · exact Or.inl (by simp [apply_entry, hk])
  · by_cases hz : hasZmqKey e = true
    · by_cases hzmq : env.zmq = true
      · by_cases ht : env.tnetstring = true
        · by_cases hcon : (e.zmq_pub_uri.isSome &&
              (e.zmq_require_subscribers.getD false || e.zmq_push_uri.isNone)) = true
          · exact Or.inr (Or.inr (by simp [apply_entry, entryClient, hk, hz, hzmq, ht, hcon]))
          · exact Or.inr (Or.inl (by simp [apply_entry, entryClient, hk, hz, hzmq, ht, hcon]))
        · exact Or.inl (by simp [apply_entry, hk, hz, hzmq, ht])
      · exact Or.inl (by simp [apply_entry, hk, hz, hzmq])
    · refine Or.inr (Or.inl ?_)
      cases hu : e.uri with
      | none => simp [apply_entry, entryClient, hk, hz, hu]
      | some u =>
        cases hi : e.iss with
        | none => simp [apply_entry, entryClient, hk, hz, hu, hi]
        | some iss =>
          simp only [hu, hi, Option.isSome_some, Bool.true_and, Bool.and_eq_true,
            Option.isNone_iff_eq_none] at hk
          simp [apply_entry, entryClient, hz, hu, hi, hk]

/-- Socket bookkeeping of one construction iteration: it never closes, and it
creates at most one socket, only when none exists. -/
theorem apply_entry_sock (env : Env) (s : PCState) (e : ConfigEntry) :
    (apply_entry env s e).1.sockCloses = s.sockCloses ∧
    (((apply_entry env s e).1.sockCreations = s.sockCreations ∧
        (apply_entry env s e).1.zmq_sock.isSome = s.zmq_sock.isSome) ∨
      ((apply_entry env s e).1.sockCreations = s.sockCreations + 1 ∧
        s.zmq_sock = none ∧ (apply_entry env s e).1.zmq_sock.isSome = true)) := by
  rcases apply_entry_cases env s e with h | h | h <;> rw [h]
  · exact ⟨rfl, Or.inl ⟨rfl, rfl⟩⟩
  · obtain ⟨h1, h2, h3⟩ := appendIfSome_sock s (entryClient e)
    exact ⟨h3, Or.inl ⟨h2, by rw [h1]⟩⟩
  · obtain ⟨h1, h2, h3⟩ :=
      appendIfSome_sock (_connect_zmq_pub_uri env s (e.zmq_pub_uri.getD "")) (entryClient e)
    obtain ⟨hc, hd⟩ := connect_sock env s (e.zmq_pub_uri.getD "")
    refine ⟨by rw [h3, hc], ?_⟩
    rcases hd with ⟨d1, d2⟩ | ⟨d1, d2, d3⟩
    · exact Or.inl ⟨by rw [h2, d1], by rw [h1, d2]⟩
    · exact Or.inr ⟨by rw [h2, d1], d2, by rw [h1, d3]⟩

/-- Socket bookkeeping of the whole construction pass. -/
theorem apply_entries_sock (env : Env) :
    ∀ (es : List ConfigEntry) (s : PCState),
      (apply_entries env s es).1.sockCloses = s.sockCloses ∧
      (((apply_entries env s es).1.sockCreations = s.sockCreations ∧
          (apply_entries env s es).1.zmq_sock.isSome = s.zmq_sock.isSome) ∨
        ((apply_entries env s es).1.sockCreations = s.sockCreations + 1 ∧
          s.zmq_sock = none ∧ (apply_entries env s es).1.zmq_sock.isSome = true))
  | [], _ => ⟨rfl, Or.inl ⟨rfl, rfl⟩⟩
  | e :: rest, s => by
    cases herr : (apply_entry env s e).2 with
    | some err =>
      have h1 := apply_entry_sock env s e
      simp only [apply_entries, herr]
      exact h1
    | none =>
      have h1 := apply_entry_sock env s e
      have ih := apply_entries_sock env rest (apply_entry env s e).1
      simp only [apply_entries, herr]
      refine ⟨by rw [ih.1, h1.1], ?_⟩
      rcases h1.2 with ⟨a1, a2⟩ | ⟨a1, a2, a3⟩
      · rcases ih.2 with ⟨b1, b2⟩ | ⟨b1, b2, b3⟩
        · exact Or.inl ⟨by rw [b1, a1], by rw [b2, a2]⟩
        · have hs : s.zmq_sock = none := by
            cases hso : s.zmq_sock with
            | none => rfl
            | some v => simp [hso, b2] at a2
          exact Or.inr ⟨by rw [b1, a1], hs, b3⟩
      · rcases ih.2 with ⟨b1, b2⟩ | ⟨b1, b2, b3⟩
        · exact Or.inr ⟨by rw [b1, a1], a2, by rw [b2, a3]⟩
        · rw [b2] at a3
          simp at a3
  termination_by es => es.length

/-- Socket bookkeeping of `apply_config`. -/
theorem apply_config_sock (env : Env) (s : PCState) (config : Config) :
    (apply_config env s config).1.sockCloses = s.sockCloses ∧
    (((apply_config env s config).1.sockCreations = s.sockCreations ∧
        (apply_config env s config).1.zmq_sock.isSome = s.zmq_sock.isSome) ∨
      ((apply_config env s config).1.sockCreations = s.sockCreations + 1 ∧
        s.zmq_sock = none ∧ (apply_config env s config).1.zmq_sock.isSome = true)) := by
  unfold apply_config
  cases hf : config.toEntries.find? entryInvalid with
  | some e =>
    simp only [hf]
    simp
  | none =>
    simp only [hf]
    exact apply_entries_sock env config.toEntries s

/-- Socket bookkeeping of `remove_all_clients`: creations untouched, the
socket always absent afterwards, one close recorded iff one was live. -/
theorem remove_all_clients_sock (s : PCState) :
    (remove_all_clients s).sockCreations = s.sockCreations ∧
    (remove_all_clients s).zmq_sock = none ∧
    (remove_all_clients s).sockCloses =
      s.sockCloses + (if s.zmq_sock.isSome = true then 1 else 0) := by
  cases h : s.zmq_sock with
  | none => simp [remove_all_clients, h]
  | some v => simp [remove_all_clients, h]

/-- The three-part invariant is one arithmetic equation. -/
theorem sockInv_iff (t : PCState) :
    sockInv t ↔
      t.sockCreations = t.sockCloses + (if t.zmq_sock.isSome = true then 1 else 0) := by
  unfold sockInv
  cases hso : t.zmq_sock.isSome <;> simp [hso] <;> omega

/-- Every single operation preserves the socket invariant. -/
theorem runOp_sockInv (env : Env) (s : PCState) (op : Op) (h : sockInv s) :
    sockInv (runOp env s op) := by
  rw [sockInv_iff] at h ⊢
  cases op with
  | applyConfig cfg =>
    obtain ⟨hcl, hd⟩ := apply_config_sock env s cfg
    simp only [runOp]
    rcases hd with ⟨d1, d2⟩ | ⟨d1, d2, d3⟩
    · rw [hcl, d1]
      simp only [d2]
      exact h
    · rw [hcl, d1]
      simp only [d3, if_pos]
      rw [d2] at h
      simp at h
      omega
  | connectZmqPubUri u =>
    obtain ⟨hcl, hd⟩ := connect_sock env s u
    simp only [runOp]
    rcases hd with ⟨d1, d2⟩ | ⟨d1, d2, d3⟩
    · rw [hcl, d1]
      simp only [d2]
      exact h
    · rw [hcl, d1]
      simp only [d3, if_pos]
      rw [d2] at h
      simp at h
      omega
  | publishOp ch b cb => exact h
  | removeAllClients =>
    obtain ⟨hcr, hsock, hcl⟩ := remove_all_clients_sock s
    simp only [runOp]
    rw [hcr, hcl]
    simp only [hsock, Option.isSome_none]
    cases hso : s.zmq_sock.isSome <;> simp only [hso] at h ⊢ <;> simp at h ⊢ <;> omega

/-- Every operation sequence preserves the socket invariant. -/
theorem runOps_sockInv (env : Env) :
    ∀ (ops : List Op) (s : PCState), sockInv s → sockInv (runOps env s ops)
  | [], _, h => h
  | op :: rest, s, h => runOps_sockInv env rest (runOp env s op) (runOp_sockInv env s op h)

/-- The fresh dispatcher satisfies the socket invariant. -/
theorem initState_sockInv : sockInv initState := by
  rw [sockInv_iff]
  rfl

/-- Claim C7 (amended): over any sequence of `apply_config`,
`_connect_zmq_pub_uri`, `publish` and `remove_all_clients` calls, at most one
shared socket is ever live, a socket is created only when none is present,
and closes happen only inside `remove_all_clients` and only on a live socket
— but a creation is NOT at-most-once over the lifetime: after
`remove_all_clients` clears the socket, a later connect creates a fresh one
(see the counterexample). -/
theorem shared_socket_lifecycle (env : Env) (ops : List Op) :
    sockInv (runOps env initState ops) ∧
    (∀ (s : PCState) (op : Op),
      (runOp env s op).sockCloses = s.sockCloses ∨
        ((runOp env s op).sockCloses = s.sockCloses + 1 ∧ op = Op.removeAllClients ∧
          s.zmq_sock.isSome = true)) ∧
    (∀ (s : PCState) (op : Op),
      (runOp env s op).sockCreations = s.sockCreations ∨
        ((runOp env s op).sockCreations = s.sockCreations + 1 ∧ s.zmq_sock = none)) := by
  refine ⟨runOps_sockInv env ops initState initState_sockInv, ?_, ?_⟩
  · intro s op
    cases op with
    | applyConfig cfg => exact Or.inl (apply_config_sock env s cfg).1
    | connectZmqPubUri u => exact Or.inl (connect_sock env s u).1
    | publishOp ch b cb => exact Or.inl rfl
    | removeAllClients =>
      obtain ⟨_, _, hcl⟩ := remove_all_clients_sock s
      simp only [runOp]
      cases hso : s.zmq_sock.isSome with
      | false =>
        left
        rw [hcl]
        simp [hso]
      | true =>
        right
        refine ⟨?_, by simp, rfl⟩
        rw [hcl]
        simp [hso]
  · intro s op
    cases op with
    | applyConfig cfg =>
      rcases (apply_config_sock env s cfg).2 with ⟨d1, _⟩ | ⟨d1, d2, _⟩
      · exact Or.inl d1
      · exact Or.inr ⟨d1, d2⟩
    | connectZmqPubUri u =>
      rcases (connect_sock env s u).2 with ⟨d1, _⟩ | ⟨d1, d2, _⟩
      · exact Or.inl d1
      · exact Or.inr ⟨d1, d2⟩
    | publishOp ch b cb => exact Or.inl rfl
    | removeAllClients => exact Or.inl (remove_all_clients_sock s).1

/-- Counterexample to C7 as stated: connect, remove-all, connect again — the
second connect creates a second socket, so over the instance lifetime the
shared socket is not created at most once (the close count after remove-all
is 1, as the claim says). -/
theorem shared_socket_recreated_after_remove :
    (runOps ⟨true, true, false⟩ initState
        [Op.connectZmqPubUri "tcp://a", Op.removeAllClients,
          Op.connectZmqPubUri "tcp://a"]).sockCreations = 2 ∧
    (runOps ⟨true, true, false⟩ initState
        [Op.connectZmqPubUri "tcp://a", Op.removeAllClients]).sockCloses = 1 :=
  ⟨rfl, rfl⟩

/-! ## Claim C8 -/

/-- The construction pass over a concatenation runs the first block and, if
it did not raise, continues on its resulting state. -/
theorem apply_entries_append (env : Env) :
    ∀ (l₁ l₂ : List ConfigEntry) (s : PCState),
      apply_entries env s (l₁ ++ l₂) =
        (match (apply_entries env s l₁).2 with
         | none => apply_entries env (apply_entries env s l₁).1 l₂
         | some err => ((apply_entries env s l₁).1, some err))
  | [], l₂, s => rfl
  | e :: rest, l₂, s => by
    cases herr : (apply_entry env s e).2 with
    | some err => simp only [List.cons_append, apply_entries, herr]
    | none =>
      simp only [List.cons_append, apply_entries, herr]
      exact apply_entries_append env rest l₂ (apply_entry env s e).1

/-- Claim C8: `apply_config` is not atomic across entries — when every entry
passes validation, the construction pass applies the earlier entries for
good, and a later entry that raises (e.g. the dependency `ValueError` when a
bus URI is configured but `zmq`/`tnetstring` is unavailable) leaves the
clients registered by those earlier entries in place: the resulting state is
exactly the state after the earlier entries. -/
theorem apply_config_not_atomic
    (env : Env) (s : PCState) (es₁ : List ConfigEntry) (ebad : ConfigEntry)
    (es₂ : List ConfigEntry) (s₁ : PCState) (err : PCError)
    (hval : ∀ e ∈ es₁ ++ ebad :: es₂, entryInvalid e = false)
    (h1 : apply_entries env s es₁ = (s₁, none))
    (h2 : apply_entry env s₁ ebad = (s₁, some err)) :
    apply_config env s (Config.list (es₁ ++ ebad :: es₂)) = (s₁, some err) := by
  unfold apply_config Config.toEntries
  have hfind : (es₁ ++ ebad :: es₂).find? entryInvalid = none := by
    rw [List.find?_eq_none]
    intro x hx
    simp [hval x hx]
  simp only [hfind]
  rw [apply_entries_append env es₁ (ebad :: es₂) s, h1]
  simp only [apply_entries, h2]

/-- Witness for C8: entry 1 (a direct URI) is applied and registered; entry 2
(a bus URI) raises the `zmq` dependency error; the direct client from entry 1
stays registered. -/
theorem apply_config_not_atomic_witness :
    apply_config ⟨false, false, false⟩ initState
        (Config.list [{ uri := some "https://a.example/pub" }, { zmq_uri := some "tcp://x" }]) =
      ({ initState with
          clients := [Client.pubControlClient "https://a.example/pub" none] },
        some (PCError.valueError "zmq package must be installed")) :=
  apply_config_not_atomic ⟨false, false, false⟩ initState
    [{ uri := some "https://a.example/pub" }] { zmq_uri := some "tcp://x" } []
    { initState with clients := [Client.pubControlClient "https://a.example/pub" none] }
    (PCError.valueError "zmq package must be installed")
    (by decide) rfl rfl

/-! ## Claim C9 -/

/-- Claim C9: after `remove_all_clients` the client sequence is empty and the
shared socket is absent, so a subsequent `publish` — blocking or not, with or
without a callback, on a dispatcher whose socket may never have been created
— sends nothing, dispatches to no client, and propagates no error. -/
theorem remove_all_then_publish_noop
    (beh : Client → Option String) (ensure_utf8 dumps : String → String)
    (s : PCState) (channel : String) (item : Item) (blocking hasCallback : Bool) :
    (remove_all_clients s).clients = [] ∧
    (remove_all_clients s).zmq_sock = none ∧
    publish beh ensure_utf8 dumps (remove_all_clients s) channel item
        blocking hasCallback =
      { events := [],
        handlerSize := if blocking then none else if hasCallback then some 0 else none,
        error := none } := by
  have hcl : (remove_all_clients s).clients = [] := by
    unfold remove_all_clients
    cases h : s.zmq_sock <;> simp [h]
  have hsock : (remove_all_clients s).zmq_sock = none := (remove_all_clients_sock s).2.1
  refine ⟨hcl, hsock, ?_⟩
  cases blocking <;> cases hasCallback <;>
    simp [publish, _send_to_zmq, hcl, hsock, publishSyncLoop]

/-! ## Claim C10 -/

/-- Claim C10: validation rejects only an explicit `false`: a bus entry that
omits `zmq_require_subscribers` (the absent/`None` value) and has no
`zmq_pub_uri` passes validation, and construction registers a bus client with
effective `require_subscribers = false` — while the same entry with an
explicit `false` is rejected by the validation pass. -/
theorem default_require_subscribers_not_rejected
    (env : Env) (s : PCState) (e : ConfigEntry)
    (hz : env.zmq = true) (ht : env.tnetstring = true)
    (huri : e.uri = none) (hrs : e.zmq_require_subscribers = none)
    (hpub : e.zmq_pub_uri = none) (hbus : hasZmqKey e = true) :
    entryInvalid e = false ∧
    apply_config env s (Config.single e) =
      ({ s with clients := s.clients ++
          [Client.zmqPubControlClient e.zmq_uri e.zmq_push_uri none false] }, none) ∧
    apply_config env s (Config.single { e with zmq_require_subscribers := some false }) =
      (s, some (PCError.valueError validationMsg)) := by
  have hinv : entryInvalid e = false := by
    simp [entryInvalid, hrs]
  refine ⟨hinv, ?_, ?_⟩
  · unfold apply_config Config.toEntries
    have hfind : List.find? entryInvalid [e] = none := by
      rw [List.find?_eq_none]
      intro x hx
      rw [List.mem_singleton] at hx
      simp [hx, hinv]
    simp only [hfind]
    simp [apply_entries, apply_entry, huri, hbus, hz, ht, hrs, hpub, appendIfSome]
  · unfold apply_config Config.toEntries
    have hinv' : entryInvalid { e with zmq_require_subscribers := some false } = true := by
      simp [entryInvalid, hpub]
    have hfind : List.find? entryInvalid [{ e with zmq_require_subscribers := some false }] =
        some { e with zmq_require_subscribers := some false } := by
      simp [List.find?, hinv']
    simp only [hfind]

/-- Witness for C10: the entry with only `zmq_uri` registers a bus client
with `require_subscribers = false`; adding an explicit
`zmq_require_subscribers: false` gets the whole call rejected. -/
theorem default_require_subscribers_witness :
    apply_config ⟨true, true, false⟩ initState
        (Config.single { zmq_uri := some "tcp://x" }) =
      ({ initState with
          clients := [Client.zmqPubControlClient (some "tcp://x") none none false] }, none) ∧
    apply_config ⟨true, true, false⟩ initState
        (Config.single { zmq_uri := some "tcp://x", zmq_require_subscribers := some false }) =
      (initState, some (PCError.valueError validationMsg)) :=
  ⟨(default_require_subscribers_not_rejected ⟨true, true, false⟩ initState
      { zmq_uri := some "tcp://x" } rfl rfl rfl rfl rfl rfl).2.1,
   (default_require_subscribers_not_rejected ⟨true, true, false⟩ initState
      { zmq_uri := some "tcp://x" } rfl rfl rfl rfl rfl rfl).2.2⟩

end PubControlModel
